import Mathlib

/-
Verification of the GLUtils GPU-resource layer (glutils.cpp / glutils.h).

The development shallowly embeds the pure logic of the layer:
machine integers are modelled as Nat/Int with explicit `% 2^w` where
C/C++ unsigned wraparound or implementation-defined conversions matter,
device (OpenGL) calls are modelled as traces of issued calls plus a
per-call error oracle, and file contents are lists of characters.
-/

/-! ### C/C++ integer conversion helpers

`i32 n` is the value of `(int)n` on a mainstream (two's-complement,
modular-conversion) implementation; `intToSizeT i` is `(size_t)i` for a
32/64-bit platform; `npos` is `std::string::npos` (size_t max).  -/

def npos : Nat := 2 ^ 64 - 1

def i32 (n : Int) : Int := (n + 2 ^ 31) % 2 ^ 32 - 2 ^ 31

def intToSizeT (i : Int) : Nat := (i % 2 ^ 64).toNat

/-- The size_t value of an `Option Nat` find result: `npos` when not found. -/
def szOf : Option Nat → Nat
  | some j => j
  | none => npos

/-- size_t subtraction `a - (size_t)b` (mod 2^64), `b` a C int value. -/
def szSub (a : Nat) (b : Int) : Nat := (((a : Int) - b) % 2 ^ 64).toNat

def nulChar : Char := Char.ofNat 0

/-! ### String-scanning primitives (std::string::find and friends)

All are structural recursions (on an explicit remaining-count argument)
so that every run evaluates by `decide`/`rfl`. -/

/-- `startsWith pat l` : `pat` occurs at the head of `l` (byte-wise
comparison; false when `l` is shorter than `pat`). -/
def startsWith : List Char → List Char → Bool
  | [], _ => true
  | _ :: _, [] => false
  | p :: ps, c :: cs => if p = c then startsWith ps cs else false

/-- Scan positions `i, i+1, ...` (at most `r` of them, never beyond
`s.length`) for an occurrence of `pat`. -/
def strfindIter (s pat : List Char) : Nat → Nat → Option Nat
  | _, 0 => none
  | i, r + 1 =>
    if i ≤ s.length then
      if startsWith pat (s.drop i) then some i else strfindIter s pat (i + 1) r
    else none

/-- `std::string::find(pat, start)` on contents `s`: index of the first
occurrence of `pat` at or after `start`, if any. -/
def strfind (s pat : List Char) (start : Nat) : Option Nat :=
  strfindIter s pat start (s.length + 1 - start)

/-- Scan for the first character of `s` (at or after `start`) that belongs
to the character set `set`. -/
def findFirstOfIter (s set : List Char) : Nat → Nat → Option Nat
  | _, 0 => none
  | i, r + 1 =>
    if set.contains (s.getD i nulChar) then some i else findFirstOfIter s set (i + 1) r

/-- `std::string::find_first_of(set, start)`: first position whose
character is any character of `set`. -/
def findFirstOf (s set : List Char) (start : Nat) : Option Nat :=
  findFirstOfIter s set start (s.length - start)

/-- Read of `c_str()[i]`: the character at `i`, with the terminating
NUL at (and, in this total model, beyond) the end of the buffer. -/
def cstrAt (s : List Char) (i : Nat) : Char := s.getD i nulChar

/-- `strncmp(pat, c_str() + base, pat.length) == 0`: byte comparison of
`pat` against the buffer starting at `base`. -/
def cstrMatch (s : List Char) : Nat → List Char → Bool
  | _, [] => true
  | base, p :: ps => if cstrAt s base = p then cstrMatch s (base + 1) ps else false

/-- `std::isblank` in the default locale: space and horizontal tab. -/
def isBlankChar (c : Char) : Bool := if c = ' ' then true else if c = '\t' then true else false

def skipBlanksIter (s : List Char) : Nat → Nat → Nat
  | i, 0 => i
  | i, r + 1 => if isBlankChar (cstrAt s i) then skipBlanksIter s (i + 1) r else i

/-- The blank-skipping loop `while (std::isblank(joined[pos])) pos++;`
(it always stops: the NUL at the end of the buffer is not blank). -/
def skipBlanks (s : List Char) (i : Nat) : Nat := skipBlanksIter s i (s.length + 1)

/-- `std::string::substr(pos, count)` (clamped to the available length). -/
def substrModel (s : List Char) (pos count : Nat) : List Char := (s.drop pos).take count

/-! ### Vertex layout descriptor (BufferLayout, glutils.h / glutils.cpp) -/

inductive VertexType where
  | Int : VertexType
  | Float : VertexType
deriving DecidableEq

/-- `getTypeSize` (glutils.cpp:92-103). -/
def getTypeSize : VertexType → Int
  | VertexType.Int => 4
  | VertexType.Float => 4

/-- `struct AttributeLayout { int count; VertexType type; bool normalized; }`. -/
structure AttributeLayout where
  count : Int
  type : VertexType
  normalized : Bool
deriving DecidableEq

/-- `class BufferLayout`: ordered attributes plus the accumulated stride
(an `unsigned int`, hence kept reduced mod 2^32). -/
structure BufferLayout where
  layout : List AttributeLayout
  stride : Nat
deriving DecidableEq

/-- `BufferLayout::addAttribute` (glutils.cpp:169-172):
push the attribute and do `stride += getTypeSize(type) * count`
(int product converted to unsigned, unsigned wraparound). -/
def addAttribute (L : BufferLayout) (type : VertexType) (count : Int) (normalized : Bool) :
    BufferLayout :=
  { layout := L.layout ++ [⟨count, type, normalized⟩]
    stride := (L.stride + ((getTypeSize type * count) % 2 ^ 32).toNat) % 2 ^ 32 }

/-- A freshly constructed descriptor (`BufferLayout() : stride(0)`). -/
def emptyLayout : BufferLayout := ⟨[], 0⟩

/-- The descriptor obtained from a sequence of `addAttribute` calls, in
call order (each list entry carries one call's arguments). -/
def buildLayout (calls : List AttributeLayout) : BufferLayout :=
  calls.foldl (fun L a => addAttribute L a.type a.count a.normalized) emptyLayout

/-- Mathematical sum of `count * byteSize(type)` over a call list. -/
def sumSizes (l : List AttributeLayout) : Int :=
  (l.map (fun a => getTypeSize a.type * a.count)).sum

/-- Mathematical sum of the component counts of a call list. -/
def countSum (l : List AttributeLayout) : Int := (l.map (fun a => a.count)).sum

/-! ### Buffer initialisation / setLayoutInternal device trace -/

/-- Device calls issued by `BufferBase::init(size, data, layout)` in the
error-free run. -/
inductive DevCall where
  | genBuffers : DevCall
  | bindBuffer : DevCall
  | bufferData : DevCall
  | vertexAttribPointer (index count : Int) (t : VertexType) (normalized : Bool)
      (stride : Nat) (offset : Int) : DevCall
  | enableVertexAttribArray (index : Int) : DevCall
  | unbindBuffer : DevCall

/-- The loop of `BufferBase::setLayoutInternal` (glutils.cpp:235-252):
for each attribute, issue `glVertexAttribPointer(i, count, type,
normalized, stride, (const void*)offset)` and
`glEnableVertexAttribArray(i)`, then `offset += count * getTypeSize(type)`.
Returns the issued calls and the final value of `offset`. -/
def layoutAux (stride : Nat) : List AttributeLayout → Int → Int → List DevCall × Int
  | [], _, off => ([], off)
  | a :: rest, i, off =>
    let res := layoutAux stride rest (i + 1) (off + a.count * getTypeSize a.type)
    (DevCall.vertexAttribPointer i a.count a.type a.normalized stride off ::
      DevCall.enableVertexAttribArray i :: res.1, res.2)

def setLayoutInternalCalls (L : BufferLayout) : List DevCall :=
  (layoutAux L.stride L.layout 0 0).1

def setLayoutFinalOffset (L : BufferLayout) : Int :=
  (layoutAux L.stride L.layout 0 0).2

/-- `BufferBase::init(size, data, layout)` (glutils.cpp:201-208),
error-free run: genBuffers, bind, bufferData, setLayoutInternal, unbind. -/
def bufferInitWithLayoutTrace (L : BufferLayout) : List DevCall :=
  DevCall.genBuffers :: DevCall.bindBuffer :: DevCall.bufferData ::
    (setLayoutInternalCalls L ++ [DevCall.unbindBuffer])

/-- The offsets passed by the `glVertexAttribPointer` calls of a trace,
in issue order. -/
def offsetsOf (tr : List DevCall) : List Int :=
  tr.filterMap (fun c =>
    match c with
    | DevCall.vertexAttribPointer _ _ _ _ _ off => some off
    | _ => none)

/-! ### BufferBase::setLayout (glutils.cpp:229-233)

The body is `bind(); setLayout(layout); unbind();` — the middle call is a
self-call (where `setLayoutInternal` was evidently intended), so in the
error-free device run (bind succeeds) the recursion never returns.  The
model consumes one unit of fuel per recursive activation; `none` means
"did not finish within the given fuel". -/

def setLayoutRun (L : BufferLayout) : Nat → Option Unit
  | 0 => none
  | fuel + 1 => setLayoutRun L fuel

/-! ### Shader stages and the multi-stage source splitter (Pipeline::init) -/

inductive ShaderType where
  | Vertex : ShaderType
  | Fragment : ShaderType
deriving DecidableEq

/-- The `std::unordered_map<ShaderType, Shader>` of a Pipeline, with each
stored stage represented by the exact source span it was compiled from
(`loadFromSource(ptr, length, type)` in the error-free device run). -/
structure StageMap where
  vertex : Option (List Char)
  fragment : Option (List Char)
deriving DecidableEq

def emptyStages : StageMap := ⟨none, none⟩

/-- `shaders[shaderType] = ...` : unordered_map insertion/overwrite. -/
def insertStage (m : StageMap) : ShaderType → List Char → StageMap
  | ShaderType.Vertex, src => { m with vertex := some src }
  | ShaderType.Fragment, src => { m with fragment := some src }

/-- The characters of the C literal `"#shader"` (used both as the
`find_first_of` character set and as the substring searched by `find`). -/
def shaderPat : List Char := ['#', 's', 'h', 'a', 'd', 'e', 'r']

def vertexTok : List Char := ['v', 'e', 'r', 't', 'e', 'x']

def fragmentTok : List Char := ['f', 'r', 'a', 'g', 'm', 'e', 'n', 't']

def nlPat : List Char := ['\n']

/-- The literal prefix of the parse-failure message
`"Unknown shader type: %s"`. -/
def unknownMsg : List Char :=
  ['U', 'n', 'k', 'n', 'o', 'w', 'n', ' ', 's', 'h', 'a', 'd', 'e', 'r', ' ',
   't', 'y', 'p', 'e', ':', ' ']

/-- One iteration of the `Pipeline::init` while-loop (glutils.cpp:443-471),
entered with `currentPos = pos` (a C int) and the stage map so far; device
calls (`loadFromSource`) succeed (error-free run).  All size_t/int
conversions of the source are modelled explicitly:
`find` results are size_t (`npos` when absent) and are stored into `int`
locals (`i32`), `npos + 1` wraps to `0` in size_t arithmetic, and the
comparison with `npos` converts the int back to size_t;
each local of the loop body is modelled by a named definition:
`shaderStartOf` is `const int shaderStart = joinedShader.find("\n", currentPos, 1) + 1`,
`nextStartOf` is `const int nextShaderStart = joinedShader.find("#shader", shaderStart, 7)`,
`shaderEndOf` is `const int shaderEnd = nextShaderStart == npos ? size : nextShaderStart`,
`spanOf` is the `shaderSize`-byte source span handed to `loadFromSource`, and
`unknownTokenOf` is the `substr(currentPos, shaderTypeLen)` token of the error path. -/
def shaderStartOf (s : List Char) (cur : Nat) : Int :=
  i32 (((szOf (strfind s nlPat cur) + 1) % 2 ^ 64 : Nat) : Int)

def nextStartOf (s : List Char) (shaderStart : Int) : Int :=
  i32 ((szOf (strfind s shaderPat (intToSizeT shaderStart)) : Nat) : Int)

def shaderEndOf (s : List Char) (shaderStart : Int) : Int :=
  if intToSizeT (nextStartOf s shaderStart) = npos then i32 (s.length : Int)
  else nextStartOf s shaderStart

def spanOf (s : List Char) (shaderStart shaderSize : Int) : List Char :=
  (s.drop (intToSizeT shaderStart)).take (intToSizeT shaderSize)

def unknownTokenOf (s : List Char) (cur : Nat) (shaderStart : Int) : List Char :=
  substrModel s cur
    (intToSizeT (i32 ((szSub (szOf (strfind s nlPat (intToSizeT shaderStart))) (cur : Int) :
      Nat) : Int)))

def pipeBody (s : List Char) (pos : Int) (m : StageMap) :
    Except (List Char) (Int × StageMap) :=
  let cur : Nat := skipBlanks s (intToSizeT pos)
  let shaderStart : Int := shaderStartOf s cur
  let shaderEnd : Int := shaderEndOf s shaderStart
  let span : List Char := spanOf s shaderStart (i32 (shaderEnd - shaderStart))
  if cstrMatch s (cur + 8) fragmentTok then
    Except.ok (shaderEnd, insertStage m ShaderType.Fragment span)
  else if cstrMatch s (cur + 8) vertexTok then
    Except.ok (shaderEnd, insertStage m ShaderType.Vertex span)
  else
    Except.error (unknownMsg ++ unknownTokenOf s cur shaderStart)

/-- The `while (currentPos < joinedShader.size())` loop, with one unit of
fuel per guard evaluation; `none` means the loop did not finish within the
given fuel. -/
def pipeLoop (s : List Char) : Nat → Int → StageMap → Option (Except (List Char) StageMap)
  | 0, _, _ => none
  | fuel + 1, pos, m =>
    if intToSizeT pos < s.length then
      match pipeBody s pos m with
      | Except.error e => some (Except.error e)
      | Except.ok pm => pipeLoop s fuel pm.1 pm.2
    else some (Except.ok m)

/-- `Pipeline::init` (glutils.cpp:442-471) on given file contents, in the
error-free device run: `currentPos = find_first_of("#shader", 0)` (a
character-set search), then the marker loop. -/
def pipelineInit (s : List Char) (fuel : Nat) : Option (Except (List Char) StageMap) :=
  pipeLoop s fuel (i32 ((szOf (findFirstOf s shaderPat 0) : Nat) : Int)) emptyStages

/-- The content `"#shader vertex\n"` of a well-formed vertex marker line. -/
def vMarker : List Char :=
  ['#', 's', 'h', 'a', 'd', 'e', 'r', ' ', 'v', 'e', 'r', 't', 'e', 'x', '\n']

/-- The content `"#shader fragment\n"` of a well-formed fragment marker line. -/
def fMarker : List Char :=
  ['#', 's', 'h', 'a', 'd', 'e', 'r', ' ', 'f', 'r', 'a', 'g', 'm', 'e', 'n', 't', '\n']

/-- The marker-line head `"#shader "` (directive word plus the separating
blank that `+ sizeof("#shader")` skips). -/
def markerHead : List Char := ['#', 's', 'h', 'a', 'd', 'e', 'r', ' ']

/-- A two-stage source file: vertex marker line, source `A`, fragment
marker line, source `B`. -/
def c3content (A B : List Char) : List Char := vMarker ++ (A ++ (fMarker ++ B))

/-- `"#shader vertex"` with no trailing newline. -/
def vtxNoNewline : List Char :=
  ['#', 's', 'h', 'a', 'd', 'e', 'r', ' ', 'v', 'e', 'r', 't', 'e', 'x']

/-- `"hello world"`: contains characters of the set `"#shader"` but no
`#shader` marker. -/
def helloWorld : List Char := ['h', 'e', 'l', 'l', 'o', ' ', 'w', 'o', 'r', 'l', 'd']

/-! ### Program::init (glutils.cpp:513-527) -/

inductive ProgCall where
  | createProgram : ProgCall
  | attachShader (h : Nat) : ProgCall
  | linkProgram : ProgCall
  | getLinkStatus : ProgCall
  | getProgramInfoLog : ProgCall
  | detachShader (h : Nat) : ProgCall
deriving DecidableEq

/-- The literal prefix of the link-failure message
`"Error while linking shaders code.\n%s"`. -/
def linkErrMsg : List Char :=
  ['E', 'r', 'r', 'o', 'r', ' ', 'w', 'h', 'i', 'l', 'e', ' ', 'l', 'i', 'n', 'k',
   'i', 'n', 'g', ' ', 's', 'h', 'a', 'd', 'e', 'r', 's', ' ', 'c', 'o', 'd', 'e',
   '.', '\n']

/-- `Program::init(pipeline)` in the error-free device run, abstracting the
pipeline's stage map as the list of stage handles it yields when iterated:
create the program, attach every stage, link, read the link status
(`checkProgramLinkErrors`); on failure fetch the info log and return the
diagnostic; only on success detach every stage.  Returns the trace of
issued device calls and the result. -/
def programInitRun (stages : List Nat) (linkOk : Bool) (infoLog : List Char) :
    List ProgCall × Except (List Char) Unit :=
  let pre := ProgCall.createProgram :: (stages.map ProgCall.attachShader ++
    [ProgCall.linkProgram, ProgCall.getLinkStatus])
  if linkOk then
    (pre ++ stages.map ProgCall.detachShader, Except.ok ())
  else
    (pre ++ [ProgCall.getProgramInfoLog], Except.error (linkErrMsg ++ infoLog))

/-! ### Texture2D::init, extended overload (glutils.cpp:674-726)

Modelled after the image has been decoded successfully with 3 channels
(the claim is about device-call checking).  `o c = true` means the device
reports an error for call `c`; the GL error flag is sticky, and
`RETURN_ON_GL_ERROR` reads it right after the wrapped call, while the four
`glTexParameteri` calls (lines 697, 700, 705, 708) are issued bare. -/

inductive TexCall where
  | genTextures : TexCall
  | bindTexture : TexCall
  | wrapS : TexCall
  | wrapT : TexCall
  | minFilter : TexCall
  | magFilter : TexCall
  | texImage2D : TexCall
  | generateMipmap : TexCall
deriving DecidableEq

def texInit2Run (o : TexCall → Bool) (mipmap : Bool) : List TexCall × Bool :=
  if o TexCall.genTextures then ([TexCall.genTextures], false)
  else if o TexCall.bindTexture then ([TexCall.genTextures, TexCall.bindTexture], false)
  else
    let paramsTrace := [TexCall.genTextures, TexCall.bindTexture, TexCall.wrapS,
      TexCall.wrapT, TexCall.minFilter, TexCall.magFilter, TexCall.texImage2D]
    if o TexCall.wrapS || o TexCall.wrapT || o TexCall.minFilter || o TexCall.magFilter
        || o TexCall.texImage2D then
      (paramsTrace, false)
    else if mipmap then
      (paramsTrace ++ [TexCall.generateMipmap], !o TexCall.generateMipmap)
    else (paramsTrace, true)

/-- A device that reports an error exactly at the first (unchecked)
`glTexParameteri(GL_TEXTURE_WRAP_S, ...)` call. -/
def oWrapSFails : TexCall → Bool
  | TexCall.wrapS => true
  | _ => false

/-! ### freeMem of the four resource classes

The device is abstracted as the list of live handles.  Per the OpenGL
specification, `glDeleteBuffers`, `glDeleteVertexArrays` and
`glDeleteTextures` silently ignore zero and unknown names (never raising
an error), while `glDeleteProgram` ignores zero but raises
GL_INVALID_VALUE for a nonzero name that is not a program object.
`err` records whether the call left a device error; a result of `none`
means an `assert` in the function fired (an abort in debug builds). -/

structure FreeOut where
  dev : List Nat
  handle : Nat
  err : Bool
deriving DecidableEq

/-- `BufferBase::freeMem` (glutils.cpp:254-256): `glDeleteBuffers(1, &handle)`;
the handle member is not reset. -/
def bufferFreeMem (dev : List Nat) (h : Nat) : FreeOut := ⟨dev.erase h, h, false⟩

/-- `VAO::freeMem` (glutils.cpp:615-618): `assert(handle != 0)` then
`glDeleteVertexArrays(1, &handle)`; the handle member is not reset. -/
def vaoFreeMem (dev : List Nat) (h : Nat) : Option FreeOut :=
  if h = 0 then none else some ⟨dev.erase h, h, false⟩

/-- `Program::freeMem` (glutils.cpp:573-579): `if (handle)` delete, assert
no device error, set `handle = 0`. -/
def programFreeMem (dev : List Nat) (h : Nat) : Option FreeOut :=
  if h = 0 then some ⟨dev, 0, false⟩
  else if h ∈ dev then some ⟨dev.erase h, 0, false⟩
  else none

/-- `Texture2D::freeMem` (glutils.cpp:739-744): delete (never errors),
assert no device error, set `texture = 0`. -/
def texFreeMem (dev : List Nat) (h : Nat) : Option FreeOut :=
  some ⟨dev.erase h, 0, false⟩

/-! ### Arithmetic and layout lemmas -/

theorem getTypeSize_eq_four (t : VertexType) : getTypeSize t = 4 := by
  cases t <;> rfl

theorem sumSizes_nil : sumSizes [] = 0 := rfl

theorem sumSizes_cons (a : AttributeLayout) (l : List AttributeLayout) :
    sumSizes (a :: l) = getTypeSize a.type * a.count + sumSizes l := by
  simp [sumSizes]

theorem sumSizes_nonneg (l : List AttributeLayout) (hc : ∀ a ∈ l, 0 ≤ a.count) :
    0 ≤ sumSizes l := by
  induction l with
  | nil => simp [sumSizes]
  | cons a rest ih =>
    rw [sumSizes_cons, getTypeSize_eq_four]
    have h1 : 0 ≤ a.count := hc a (by simp)
    have h2 : 0 ≤ sumSizes rest := ih (fun b hb => hc b (by simp [hb]))
    omega

theorem sumSizes_eq_four_mul (l : List AttributeLayout) :
    sumSizes l = 4 * countSum l := by
  induction l with
  | nil => rfl
  | cons a rest ih =>
    rw [sumSizes_cons, getTypeSize_eq_four, ih]
    simp [countSum]
    ring

theorem buildLayout_stride_aux (calls : List AttributeLayout) :
    ∀ L : BufferLayout, (∀ a ∈ calls, 0 ≤ a.count) →
      (L.stride : Int) + sumSizes calls < 2 ^ 32 → L.stride < 2 ^ 32 →
      ((calls.foldl (fun L a => addAttribute L a.type a.count a.normalized) L).stride : Int)
        = L.stride + sumSizes calls := by
  induction calls with
  | nil => intro L _ _ _; simp [sumSizes]
  | cons a rest ih =>
    intro L hc hbound hstr
    have hac : 0 ≤ a.count := hc a (by simp)
    have hrest : ∀ b ∈ rest, 0 ≤ b.count := fun b hb => hc b (by simp [hb])
    have hsr : 0 ≤ sumSizes rest := sumSizes_nonneg rest hrest
    have hcons := sumSizes_cons a rest
    rw [getTypeSize_eq_four] at hcons
    have hg : (0 : Int) ≤ 4 * a.count := by omega
    have hglt : 4 * a.count < 2 ^ 32 := by omega
    have hstep :
        ((addAttribute L a.type a.count a.normalized).stride : Int) = L.stride + 4 * a.count := by
      simp only [addAttribute, getTypeSize_eq_four]
      rw [Int.emod_eq_of_lt hg hglt]
      have ht : ((4 * a.count).toNat : Int) = 4 * a.count := Int.toNat_of_nonneg hg
      have hlt : L.stride + (4 * a.count).toNat < 2 ^ 32 := by omega
      rw [Nat.mod_eq_of_lt hlt]
      push_cast
      omega
    have hstep2 : (addAttribute L a.type a.count a.normalized).stride < 2 ^ 32 := by
      simp only [addAttribute]
      exact Nat.mod_lt _ (by norm_num)
    rw [List.foldl_cons, ih (addAttribute L a.type a.count a.normalized) hrest (by omega)
      hstep2, hstep]
    omega

theorem buildLayout_stride (calls : List AttributeLayout)
    (hc : ∀ a ∈ calls, 0 ≤ a.count) (hb : sumSizes calls < 2 ^ 32) :
    (((buildLayout calls).stride : Int)) = sumSizes calls := by
  have := buildLayout_stride_aux calls emptyLayout hc (by simp [emptyLayout]; omega)
    (by simp [emptyLayout])
  simpa [buildLayout, emptyLayout] using this

theorem buildLayout_layout_aux (calls : List AttributeLayout) :
    ∀ L : BufferLayout,
      ((calls.foldl (fun L a => addAttribute L a.type a.count a.normalized) L).layout)
        = L.layout ++ calls := by
  induction calls with
  | nil => intro L; simp
  | cons a rest ih =>
    intro L
    rw [List.foldl_cons, ih]
    simp [addAttribute]

theorem buildLayout_layout (calls : List AttributeLayout) :
    (buildLayout calls).layout = calls := by
  have := buildLayout_layout_aux calls emptyLayout
  simpa [buildLayout, emptyLayout] using this

theorem layoutAux_final (stride : Nat) (attrs : List AttributeLayout) :
    ∀ (i off : Int), (layoutAux stride attrs i off).2 = off + sumSizes attrs := by
  induction attrs with
  | nil => intro i off; simp [layoutAux, sumSizes]
  | cons a rest ih =>
    intro i off
    rw [layoutAux]
    simp only
    rw [ih, sumSizes_cons]
    ring

theorem layoutAux_offsets_cons (stride : Nat) (a : AttributeLayout)
    (rest : List AttributeLayout) (i off : Int) :
    offsetsOf (layoutAux stride (a :: rest) i off).1
      = off :: offsetsOf (layoutAux stride rest (i + 1)
          (off + a.count * getTypeSize a.type)).1 := by
  rw [layoutAux]
  simp [offsetsOf]

theorem layoutAux_offsets_length (stride : Nat) (attrs : List AttributeLayout) :
    ∀ (i off : Int), (offsetsOf (layoutAux stride attrs i off).1).length = attrs.length := by
  induction attrs with
  | nil => intro i off; simp [layoutAux, offsetsOf]
  | cons a rest ih =>
    intro i off
    rw [layoutAux_offsets_cons]
    simp [ih]

theorem layoutAux_offsets_getD (stride : Nat) (attrs : List AttributeLayout) :
    ∀ (i off : Int) (k : Nat), k < attrs.length →
      (offsetsOf (layoutAux stride attrs i off).1).getD k 0
        = off + sumSizes (attrs.take k) := by
  induction attrs with
  | nil => intro i off k hk; simp at hk
  | cons a rest ih =>
    intro i off k hk
    rcases k with _ | k
    · simp [layoutAux_offsets_cons, sumSizes]
    · rw [layoutAux_offsets_cons, List.getD_cons_succ, ih _ _ k (by simpa using hk),
        List.take_succ_cons, sumSizes_cons]
      ring

/-! ### Claim C1: layout offsets passed by setLayoutInternal -/

/-- C1: for a Buffer initialised with a layout of N attributes (built by
`addAttribute` calls with the C-int arithmetic defined, i.e. nonnegative
component counts and a total byte size below 2^31), the byte offset passed
to the device for attribute `k` equals the sum of
`count * byteSize(type)` over attributes `0..k-1` (tight packing), and the
offset accumulated after all N attributes equals the layout's stride. -/
theorem c1_layout_offsets (calls : List AttributeLayout)
    (hc : ∀ a ∈ calls, 0 ≤ a.count) (hb : sumSizes calls < 2 ^ 31) :
    (offsetsOf (bufferInitWithLayoutTrace (buildLayout calls))).length = calls.length
    ∧ (∀ (k : Nat)
        (hk : k < (offsetsOf (bufferInitWithLayoutTrace (buildLayout calls))).length),
        (offsetsOf (bufferInitWithLayoutTrace (buildLayout calls))).get ⟨k, hk⟩
          = sumSizes (calls.take k))
    ∧ setLayoutFinalOffset (buildLayout calls) = ((buildLayout calls).stride : Int) := by
  have hlay : (buildLayout calls).layout = calls := buildLayout_layout calls
  have hall : offsetsOf (bufferInitWithLayoutTrace (buildLayout calls))
      = offsetsOf (layoutAux (buildLayout calls).stride calls 0 0).1 := by
    simp only [bufferInitWithLayoutTrace, offsetsOf, setLayoutInternalCalls, hlay,
      List.filterMap_cons, List.filterMap_append]
    simp [offsetsOf]
  have hlen : (offsetsOf (bufferInitWithLayoutTrace (buildLayout calls))).length
      = calls.length := by
    rw [hall, layoutAux_offsets_length]
  refine ⟨hlen, ?_, ?_⟩
  · intro k hk
    rw [List.get_eq_getElem, ← List.getD_eq_getElem _ 0 hk, hall,
      layoutAux_offsets_getD _ _ _ _ k (by omega)]
    simp
  · simp only [setLayoutFinalOffset, hlay]
    rw [layoutAux_final]
    rw [buildLayout_stride calls hc (by omega)]
    simp

/-- C1 witness: a three-attribute layout; offsets 0, 12, 20 and final
offset 24 = stride. -/
theorem c1_witness :
    setLayoutFinalOffset (buildLayout
        [⟨3, VertexType.Float, false⟩, ⟨2, VertexType.Int, true⟩, ⟨1, VertexType.Float, false⟩])
      = ((buildLayout
        [⟨3, VertexType.Float, false⟩, ⟨2, VertexType.Int, true⟩,
          ⟨1, VertexType.Float, false⟩]).stride : Int) :=
  (c1_layout_offsets
    [⟨3, VertexType.Float, false⟩, ⟨2, VertexType.Int, true⟩, ⟨1, VertexType.Float, false⟩]
    (by decide) (by decide)).2.2

/-! ### Claim C2: stride accumulation -/

/-- C2: for any sequence of `addAttribute` calls (nonnegative counts,
total below 2^32 so the unsigned accumulation does not wrap), `getStride()`
is the sum of `count * byteSize(type)` over the calls, in call order,
regardless of how Int and Float attributes interleave. -/
theorem c2_stride_accumulation (calls : List AttributeLayout)
    (hc : ∀ a ∈ calls, 0 ≤ a.count) (hb : sumSizes calls < 2 ^ 32) :
    ((buildLayout calls).stride : Int) = sumSizes calls :=
  buildLayout_stride calls hc hb

/-- C2 witness: Int/Float interleaving, stride 4*3 + 4*2 + 4*4 = 36. -/
theorem c2_witness :
    ((buildLayout
        [⟨3, VertexType.Int, false⟩, ⟨2, VertexType.Float, true⟩,
          ⟨4, VertexType.Int, false⟩]).stride : Int)
      = sumSizes
        [⟨3, VertexType.Int, false⟩, ⟨2, VertexType.Float, true⟩,
          ⟨4, VertexType.Int, false⟩] :=
  c2_stride_accumulation
    [⟨3, VertexType.Int, false⟩, ⟨2, VertexType.Float, true⟩, ⟨4, VertexType.Int, false⟩]
    (by decide) (by decide)

/-! ### Claim C10: byte size is 4 for both vertex types -/

/-- C10: `getTypeSize` returns 4 for both `Int` and `Float`, so the stride
of any descriptor is 4 times the total component count, independent of the
attribute types and normalized flags. -/
theorem c10_stride_four_times_counts (calls : List AttributeLayout)
    (hc : ∀ a ∈ calls, 0 ≤ a.count) (hb : 4 * countSum calls < 2 ^ 32) :
    (∀ t : VertexType, getTypeSize t = 4)
    ∧ ((buildLayout calls).stride : Int) = 4 * countSum calls := by
  refine ⟨getTypeSize_eq_four, ?_⟩
  rw [buildLayout_stride calls hc (by rw [sumSizes_eq_four_mul]; omega)]
  exact sumSizes_eq_four_mul calls

/-- C10 witness: mixed types and flags, stride 4 * (2 + 3) = 20. -/
theorem c10_witness :
    (∀ t : VertexType, getTypeSize t = 4)
    ∧ ((buildLayout
        [⟨2, VertexType.Float, true⟩, ⟨3, VertexType.Int, false⟩]).stride : Int)
      = 4 * countSum [⟨2, VertexType.Float, true⟩, ⟨3, VertexType.Int, false⟩] :=
  c10_stride_four_times_counts
    [⟨2, VertexType.Float, true⟩, ⟨3, VertexType.Int, false⟩] (by decide) (by decide)

/-! ### Claim C4: immediate checking of device calls (corrected) -/

/-- C4 counterexample: in the extended `Texture2D::init`, a device error
raised by the first `glTexParameteri` (wrapS) does not abort — the three
remaining parameter calls and `glTexImage2D` are still issued (seven calls
in the trace, the error only surfacing at the `glTexImage2D` check), so
not every device call is checked immediately after issue. -/
theorem c4_counterexample :
    oWrapSFails TexCall.wrapS = true
    ∧ (texInit2Run oWrapSFails true).1
        = [TexCall.genTextures, TexCall.bindTexture, TexCall.wrapS, TexCall.wrapT,
           TexCall.minFilter, TexCall.magFilter, TexCall.texImage2D]
    ∧ (texInit2Run oWrapSFails true).2 = false := by
  refine ⟨rfl, ?_, ?_⟩ <;> rfl

/-- C4 amended: checked device calls abort the operation on error; in the
extended `Texture2D::init` the four `glTexParameteri` calls are issued
unchecked and an error they raise is only detected at the following
`glTexImage2D` check — the operation still returns failure and
`glGenerateMipmap` is never issued after such an error. -/
theorem c4_unchecked_params_detected_late (o : TexCall → Bool) (mipmap : Bool)
    (h1 : o TexCall.genTextures = false) (h2 : o TexCall.bindTexture = false)
    (hp : o TexCall.wrapS = true ∨ o TexCall.wrapT = true
      ∨ o TexCall.minFilter = true ∨ o TexCall.magFilter = true) :
    (texInit2Run o mipmap).2 = false
    ∧ TexCall.texImage2D ∈ (texInit2Run o mipmap).1
    ∧ TexCall.generateMipmap ∉ (texInit2Run o mipmap).1 := by
  have hflag : (o TexCall.wrapS || o TexCall.wrapT || o TexCall.minFilter
      || o TexCall.magFilter || o TexCall.texImage2D) = true := by
    rcases hp with h | h | h | h <;> simp [h]
  simp [texInit2Run, h1, h2, hflag]

/-- C4 witness: concrete run of the amended theorem with the
wrapS-failing device. -/
theorem c4_witness :
    (texInit2Run oWrapSFails true).2 = false
    ∧ TexCall.texImage2D ∈ (texInit2Run oWrapSFails true).1
    ∧ TexCall.generateMipmap ∉ (texInit2Run oWrapSFails true).1 :=
  c4_unchecked_params_detected_late oWrapSFails true rfl rfl (Or.inl rfl)

/-! ### Claim C5: termination of all operations (code bug) -/

theorem vtx_pipeBody_fixed :
    pipeBody vtxNoNewline 0 ⟨some [], none⟩ = Except.ok (0, ⟨some [], none⟩) := by
  rfl

theorem vtx_loop_stuck : ∀ fuel : Nat,
    pipeLoop vtxNoNewline fuel 0 ⟨some [], none⟩ = none := by
  intro fuel
  induction fuel with
  | zero => rfl
  | succ n ih =>
    simp only [pipeLoop]
    rw [if_pos (by decide : intToSizeT 0 < vtxNoNewline.length), vtx_pipeBody_fixed]
    exact ih

/-- C5: neither named operation terminates on every input.
`BufferBase::setLayout` (glutils.cpp:229-233) calls itself instead of
`setLayoutInternal`, so in the error-free run no amount of fuel lets it
return, for any layout; and `Pipeline::init` on the contents
`"#shader vertex"` (marker with no trailing newline) re-enters the loop
with `currentPos = 0` forever. -/
theorem c5_nontermination :
    (∀ (L : BufferLayout) (fuel : Nat), setLayoutRun L fuel = none)
    ∧ (∀ fuel : Nat, pipelineInit vtxNoNewline fuel = none) := by
  constructor
  · intro L fuel
    induction fuel with
    | zero => rfl
    | succ n ih => rw [setLayoutRun]; exact ih
  · intro fuel
    cases fuel with
    | zero => rfl
    | succ n =>
      have h0 : i32 ((szOf (findFirstOf vtxNoNewline shaderPat 0) : Nat) : Int) = 0 := by
        decide
      rw [pipelineInit, h0]
      simp only [pipeLoop]
      rw [if_pos (by decide : intToSizeT 0 < vtxNoNewline.length)]
      have hb : pipeBody vtxNoNewline 0 emptyStages = Except.ok (0, ⟨some [], none⟩) := by
        rfl
      rw [hb]
      exact vtx_loop_stuck n

/-! ### Claim C6: link failure leaves stages attached -/

/-- C6: when the link-status check of `Program::init` fails, every stage of
the pipeline has been attached, no stage is detached, and the diagnostic
log is returned to the caller. -/
theorem c6_link_failure_stages_attached (stages : List Nat) (infoLog : List Char) :
    (programInitRun stages false infoLog).2 = Except.error (linkErrMsg ++ infoLog)
    ∧ (∀ h ∈ stages, ProgCall.attachShader h ∈ (programInitRun stages false infoLog).1)
    ∧ (∀ h : Nat, ProgCall.detachShader h ∉ (programInitRun stages false infoLog).1) := by
  refine ⟨rfl, ?_, ?_⟩
  · intro h hh
    simp [programInitRun]
    exact hh
  · intro h
    simp [programInitRun]

/-- C6 witness: two stages, link failure. -/
theorem c6_witness :
    (programInitRun [5, 9] false ['l', 'o', 'g']).2
      = Except.error (linkErrMsg ++ ['l', 'o', 'g'])
    ∧ (∀ h ∈ [5, 9], ProgCall.attachShader h ∈ (programInitRun [5, 9] false ['l', 'o', 'g']).1)
    ∧ (∀ h : Nat, ProgCall.detachShader h ∉ (programInitRun [5, 9] false ['l', 'o', 'g']).1) :=
  c6_link_failure_stages_attached [5, 9] ['l', 'o', 'g']

/-! ### Claim C7: idempotent / zero-safe teardown (corrected) -/

/-- C7 counterexample: `VAO::freeMem` on a never-initialized VAO
(handle 0) fires `assert(handle != 0)` — an abort in debug builds — so the
claim fails for the VAO class. -/
theorem c7_counterexample : vaoFreeMem [] 0 = none := rfl

/-- C7 amended: `freeMem` twice, and `freeMem` on handle 0, raise no
device error and do not crash for Buffer, Program and Texture2D; for a VAO
this holds for double free on a nonzero (initialized) handle, while the
never-initialized case fails the VAO's assert (the counterexample). -/
theorem c7_teardown_safe (dev : List Nat) (h : Nat) (hnz : h ≠ 0) (hmem : h ∈ dev) :
    ((bufferFreeMem dev h).err = false
      ∧ (bufferFreeMem (bufferFreeMem dev h).dev (bufferFreeMem dev h).handle).err = false
      ∧ (bufferFreeMem dev 0).err = false)
    ∧ (∃ o1, vaoFreeMem dev h = some o1 ∧ o1.err = false
        ∧ ∃ o2, vaoFreeMem o1.dev o1.handle = some o2 ∧ o2.err = false)
    ∧ (∃ p1, programFreeMem dev h = some p1 ∧ p1.err = false
        ∧ ∃ p2, programFreeMem p1.dev p1.handle = some p2 ∧ p2.err = false)
    ∧ (∃ p0, programFreeMem dev 0 = some p0 ∧ p0.err = false)
    ∧ ((∃ t1, texFreeMem dev h = some t1 ∧ t1.err = false
        ∧ ∃ t2, texFreeMem t1.dev t1.handle = some t2 ∧ t2.err = false)
      ∧ ∃ t0, texFreeMem dev 0 = some t0 ∧ t0.err = false) := by
  refine ⟨⟨rfl, rfl, rfl⟩, ?_, ?_, ?_, ?_⟩
  · exact ⟨⟨dev.erase h, h, false⟩, by simp [vaoFreeMem, hnz], rfl,
      ⟨(dev.erase h).erase h, h, false⟩, by simp [vaoFreeMem, hnz], rfl⟩
  · refine ⟨⟨dev.erase h, 0, false⟩, ?_, rfl, ⟨dev.erase h, 0, false⟩, rfl, rfl⟩
    simp [programFreeMem, hnz, hmem]
  · exact ⟨⟨dev, 0, false⟩, rfl, rfl⟩
  · exact ⟨⟨⟨dev.erase h, 0, false⟩, rfl, rfl, ⟨(dev.erase h).erase 0, 0, false⟩, rfl, rfl⟩,
      ⟨dev.erase 0, 0, false⟩, rfl, rfl⟩

/-- C7 witness: handle 7 live on the device. -/
theorem c7_witness :
    ((bufferFreeMem [7] 7).err = false
      ∧ (bufferFreeMem (bufferFreeMem [7] 7).dev (bufferFreeMem [7] 7).handle).err = false
      ∧ (bufferFreeMem [7] 0).err = false)
    ∧ (∃ o1, vaoFreeMem [7] 7 = some o1 ∧ o1.err = false
        ∧ ∃ o2, vaoFreeMem o1.dev o1.handle = some o2 ∧ o2.err = false)
    ∧ (∃ p1, programFreeMem [7] 7 = some p1 ∧ p1.err = false
        ∧ ∃ p2, programFreeMem p1.dev p1.handle = some p2 ∧ p2.err = false)
    ∧ (∃ p0, programFreeMem [7] 0 = some p0 ∧ p0.err = false)
    ∧ ((∃ t1, texFreeMem [7] 7 = some t1 ∧ t1.err = false
        ∧ ∃ t2, texFreeMem t1.dev t1.handle = some t2 ∧ t2.err = false)
      ∧ ∃ t0, texFreeMem [7] 0 = some t0 ∧ t0.err = false) :=
  c7_teardown_safe [7] 7 (by decide) (by decide)

/-! ### Specification lemmas for the string-scanning primitives -/

theorem drop_append_add (l t : List Char) (i : Nat) :
    (l ++ t).drop (l.length + i) = t.drop i := by
  rw [← List.drop_drop, List.drop_left]

theorem cstrAt_append_left (l t : List Char) (i : Nat) (h : i < l.length) :
    cstrAt (l ++ t) i = cstrAt l i := by
  simp only [cstrAt, List.getD, List.get?_eq_getElem?]
  rw [List.getElem?_append, if_pos h]

theorem cstrAt_append_add (l t : List Char) (i : Nat) :
    cstrAt (l ++ t) (l.length + i) = cstrAt t i := by
  simp only [cstrAt, List.getD, List.get?_eq_getElem?]
  rw [List.getElem?_append, if_neg (by omega)]
  have h : l.length + i - l.length = i := by omega
  rw [h]

theorem cstrMatch_append_add (l t pat : List Char) :
    ∀ j : Nat, cstrMatch (l ++ t) (l.length + j) pat = cstrMatch t j pat := by
  induction pat with
  | nil => intro j; rfl
  | cons p ps ih =>
    intro j
    rw [cstrMatch, cstrMatch, cstrAt_append_add]
    have : l.length + j + 1 = l.length + (j + 1) := by omega
    rw [this, ih (j + 1)]

theorem cstrMatch_eq_startsWith (pat : List Char) (hn : nulChar ∉ pat) :
    ∀ t : List Char, cstrMatch t 0 pat = startsWith pat t := by
  induction pat with
  | nil => intro t; cases t <;> rfl
  | cons p ps ih =>
    intro t
    cases t with
    | nil =>
      rw [cstrMatch, startsWith]
      have : cstrAt [] 0 ≠ p := by
        simp [cstrAt]
        intro hcon
        exact hn (by simp [hcon])
      simp [this]
    | cons c cs =>
      rw [cstrMatch, startsWith]
      have hc : cstrAt (c :: cs) 0 = c := rfl
      rw [hc]
      by_cases hpc : p = c
      · subst hpc
        simp only [if_pos rfl]
        have := cstrMatch_append_add [p] cs ps 0
        simp at this
        rw [this]
        exact ih (fun hm => hn (by simp [hm])) cs
      · rw [if_neg (fun h => hpc h.symm), if_neg hpc]

theorem strfindIter_eq_some (s pat : List Char) :
    ∀ (r i j : Nat), i ≤ j → j ≤ s.length → j < i + r →
      startsWith pat (s.drop j) = true →
      (∀ m, i ≤ m → m < j → startsWith pat (s.drop m) = false) →
      strfindIter s pat i r = some j := by
  intro r
  induction r with
  | zero => intro i j h1 _ h3 _ _; omega
  | succ n ih =>
    intro i j h1 h2 h3 hhit hmiss
    rw [strfindIter]
    rw [if_pos (by omega : i ≤ s.length)]
    rcases Nat.eq_or_lt_of_le h1 with heq | hlt
    · subst heq
      rw [if_pos hhit]
    · rw [if_neg (by rw [hmiss i (le_refl i) hlt]; simp)]
      exact ih (i + 1) j (by omega) h2 (by omega) hhit
        (fun m hm1 hm2 => hmiss m (by omega) hm2)

theorem strfind_eq_some (s pat : List Char) (start j : Nat)
    (h1 : start ≤ j) (h2 : j ≤ s.length)
    (hhit : startsWith pat (s.drop j) = true)
    (hmiss : ∀ m, start ≤ m → m < j → startsWith pat (s.drop m) = false) :
    strfind s pat start = some j :=
  strfindIter_eq_some s pat (s.length + 1 - start) start j h1 h2 (by omega) hhit hmiss

theorem strfindIter_eq_none (s pat : List Char) :
    ∀ (r i : Nat), (∀ m, i ≤ m → m ≤ s.length → startsWith pat (s.drop m) = false) →
      strfindIter s pat i r = none := by
  intro r
  induction r with
  | zero => intro i _; rfl
  | succ n ih =>
    intro i hmiss
    rw [strfindIter]
    by_cases hi : i ≤ s.length
    · rw [if_pos hi, if_neg (by rw [hmiss i (le_refl i) hi]; simp)]
      exact ih (i + 1) (fun m hm1 hm2 => hmiss m (by omega) hm2)
    · rw [if_neg hi]

theorem strfind_eq_none (s pat : List Char) (start : Nat)
    (hmiss : ∀ m, start ≤ m → m ≤ s.length → startsWith pat (s.drop m) = false) :
    strfind s pat start = none :=
  strfindIter_eq_none s pat (s.length + 1 - start) start hmiss

theorem strfindIter_some_bounds (s pat : List Char) :
    ∀ (r i j : Nat), strfindIter s pat i r = some j → i ≤ j ∧ j ≤ s.length := by
  intro r
  induction r with
  | zero => intro i j h; cases h
  | succ n ih =>
    intro i j h
    rw [strfindIter] at h
    by_cases hi : i ≤ s.length
    · rw [if_pos hi] at h
      by_cases hhit : startsWith pat (s.drop i) = true
      · rw [if_pos hhit] at h
        cases h
        exact ⟨le_refl i, hi⟩
      · rw [if_neg hhit] at h
        have := ih (i + 1) j h
        omega
    · rw [if_neg hi] at h
      cases h

theorem strfind_some_bounds (s pat : List Char) (start j : Nat)
    (h : strfind s pat start = some j) : start ≤ j ∧ j ≤ s.length :=
  strfindIter_some_bounds s pat _ start j h

theorem skipBlanks_stop (s : List Char) (i : Nat)
    (h : isBlankChar (cstrAt s i) = false) : skipBlanks s i = i := by
  rw [skipBlanks, skipBlanksIter, if_neg (by rw [h]; simp)]

theorem findFirstOf_zero_hit (s set : List Char) (hne : 0 < s.length)
    (hc : set.contains (s.getD 0 nulChar) = true) : findFirstOf s set 0 = some 0 := by
  rw [findFirstOf, Nat.sub_zero]
  cases hl : s.length with
  | zero => omega
  | succ n => rw [findFirstOfIter, if_pos hc]

/-! ### Conversion-value lemmas -/

theorem i32_small (n : Int) (h0 : 0 ≤ n) (h1 : n < 2 ^ 31) : i32 n = n := by
  rw [i32, Int.emod_eq_of_lt (by omega) (by omega)]
  omega

theorem i32_npos : i32 ((npos : Nat) : Int) = -1 := by decide

theorem intToSizeT_ofNat (n : Nat) (h : (n : Int) < 2 ^ 64) : intToSizeT (n : Int) = n := by
  rw [intToSizeT, Int.emod_eq_of_lt (by omega) (by omega)]
  simp

theorem intToSizeT_neg_one : intToSizeT (-1) = npos := by decide

theorem startsWith_single_at (c : Char) (s : List Char) (m : Nat) (hm : m < s.length) :
    startsWith [c] (s.drop m) = if c = cstrAt s m then true else false := by
  rw [List.drop_eq_getElem_cons hm]
  simp [startsWith, cstrAt, List.getD, List.getElem?_eq_getElem hm]

theorem cstrAt_mem (s : List Char) (m : Nat) (hm : m < s.length) : cstrAt s m ∈ s := by
  simp only [cstrAt, List.getD, List.get?_eq_getElem?, List.getElem?_eq_getElem hm]
  exact List.getElem_mem hm

theorem take_append_ge (l t : List Char) (n : Nat) (h : l.length ≤ n) :
    (l ++ t).take n = l ++ t.take (n - l.length) := by
  rw [List.take_append_eq_append_take, List.take_of_length_le h]

/-! ### Claim C9: a file without markers (code bug) -/

/-- C9: the contents `"hello world"` contain no `#shader` marker, yet
`Pipeline::init` does not yield an empty pipeline — it fails with
`Unknown shader type: hello world`, because the first-marker lookup uses
`find_first_of` (a character-set search, here hitting the initial `h`)
where the loop's own `find("#shader", ...)` substring search was
evidently intended. -/
theorem c9_no_marker_error :
    (∀ i : Nat, i < helloWorld.length → startsWith shaderPat (helloWorld.drop i) = false)
    ∧ pipelineInit helloWorld 1 = some (Except.error (unknownMsg ++ helloWorld)) :=
  ⟨by decide, rfl⟩

theorem szSub_small (a b : Nat) (hba : b ≤ a) (ha : (a : Int) < 2 ^ 64) :
    szSub a ((b : Nat) : Int) = a - b := by
  rw [szSub, Int.emod_eq_of_lt (by omega) (by omega)]
  omega

/-! ### Claim C8: unrecognized stage-kind token (corrected) -/

/-- C8 counterexample: the marker token `vertexfoo` is not a recognized
stage kind (it is neither `vertex` nor `fragment`), yet `Pipeline::init`
does not fail — the stage-kind check is a prefix `strncmp`
(glutils.cpp:454, 456), so the marker is silently accepted as a Vertex
stage and the file parses successfully. -/
theorem c8_counterexample :
    (['v', 'e', 'r', 't', 'e', 'x', 'f', 'o', 'o'] ≠ vertexTok
      ∧ ['v', 'e', 'r', 't', 'e', 'x', 'f', 'o', 'o'] ≠ fragmentTok)
    ∧ pipelineInit (markerHead ++
        (['v', 'e', 'r', 't', 'e', 'x', 'f', 'o', 'o'] ++ '\n' :: ['A'])) 2
      = some (Except.ok ⟨some ['A'], none⟩) :=
  ⟨by decide, rfl⟩

set_option maxRecDepth 4000 in
/-- C8 amended: the stage-kind check is a prefix `strncmp`, so a marker
token that merely extends a recognized keyword (such as `vertexfoo`) is
silently accepted as that stage kind; for a marker line `#shader <tok>`
opening the file whose token does not begin with `vertex` or `fragment`,
`Pipeline::init` fails and the failure message contains that literal
token (the reported substring runs from the marker's `#` to the next
newline after the marker line, which covers `tok`). -/
theorem c8_unknown_token (tok rest : List Char)
    (hnl : '\n' ∉ tok)
    (hf : startsWith fragmentTok (tok ++ '\n' :: rest) = false)
    (hv : startsWith vertexTok (tok ++ '\n' :: rest) = false)
    (hsize : (markerHead ++ (tok ++ '\n' :: rest)).length < 2 ^ 31)
    (fuel : Nat) (hfuel : 1 ≤ fuel) :
    ∃ l r, pipelineInit (markerHead ++ (tok ++ '\n' :: rest)) fuel
      = some (Except.error (l ++ (tok ++ r))) := by
  have hL : (markerHead ++ (tok ++ '\n' :: rest)).length = tok.length + rest.length + 9 := by
    simp [markerHead]
    omega
  have hmh : markerHead.length = 8 := rfl
  obtain ⟨k, rfl⟩ : ∃ k, fuel = k + 1 := ⟨fuel - 1, by omega⟩
  -- the character at a position below the newline ending the marker line
  have hchar : ∀ m : Nat, m < 8 + tok.length →
      ('\n' : Char) ≠ cstrAt (markerHead ++ (tok ++ '\n' :: rest)) m := by
    intro m hm
    by_cases hm8 : m < 8
    · rw [cstrAt_append_left markerHead (tok ++ '\n' :: rest) m (by omega)]
      interval_cases m <;> decide
    · obtain ⟨j, rfl⟩ : ∃ j, m = 8 + j := ⟨m - 8, by omega⟩
      rw [show (8 : Nat) + j = markerHead.length + j from by rw [hmh],
        cstrAt_append_add markerHead (tok ++ '\n' :: rest) j]
      have hj : j < tok.length := by omega
      rw [cstrAt_append_left tok ('\n' :: rest) j hj]
      intro hcon
      exact hnl (hcon ▸ cstrAt_mem tok j hj)
  -- first-marker character-set search hits the leading '#'
  have hff : findFirstOf (markerHead ++ (tok ++ '\n' :: rest)) shaderPat 0 = some 0 := by
    apply findFirstOf_zero_hit
    · omega
    · rfl
  have hfirst : i32 ((szOf (findFirstOf (markerHead ++ (tok ++ '\n' :: rest)) shaderPat 0) :
      Nat) : Int) = 0 := by
    rw [hff]; decide
  -- blank skip stops at the '#'
  have hcur0 : skipBlanks (markerHead ++ (tok ++ '\n' :: rest)) (intToSizeT 0) = 0 := by
    rw [show intToSizeT 0 = 0 from rfl]
    exact skipBlanks_stop _ _ rfl
  -- the marker line's newline is at 8 + tok.length
  have hnl0 : strfind (markerHead ++ (tok ++ '\n' :: rest)) nlPat 0
      = some (8 + tok.length) := by
    apply strfind_eq_some
    · omega
    · omega
    · rw [show markerHead ++ (tok ++ '\n' :: rest) = (markerHead ++ tok) ++ '\n' :: rest from
        by simp]
      rw [show 8 + tok.length = (markerHead ++ tok).length from by
        rw [List.length_append, hmh]]
      rw [List.drop_left]
      simp [nlPat, startsWith]
    · intro m _ hm
      have hmlt : m < (markerHead ++ (tok ++ '\n' :: rest)).length := by omega
      rw [nlPat, startsWith_single_at _ _ _ hmlt, if_neg (hchar m hm)]
  -- value of shaderStart
  have hssv : shaderStartOf (markerHead ++ (tok ++ '\n' :: rest)) 0
      = ((9 + tok.length : Nat) : Int) := by
    rw [shaderStartOf, hnl0]
    simp only [szOf]
    rw [show ((8 + tok.length + 1) % 2 ^ 64 : Nat) = 9 + tok.length from by
      rw [Nat.mod_eq_of_lt (by omega)]; omega]
    apply i32_small
    · positivity
    · push_cast
      omega
  have hsz9 : intToSizeT ((9 + tok.length : Nat) : Int) = 9 + tok.length := by
    apply intToSizeT_ofNat
    push_cast
    omega
  -- directive token comparisons
  have hfrag : cstrMatch (markerHead ++ (tok ++ '\n' :: rest)) (0 + 8) fragmentTok
      = false := by
    rw [show (0 : Nat) + 8 = markerHead.length + 0 from by rw [hmh]]
    rw [cstrMatch_append_add markerHead (tok ++ '\n' :: rest) fragmentTok 0]
    rw [cstrMatch_eq_startsWith fragmentTok (by decide) (tok ++ '\n' :: rest)]
    exact hf
  have hvert : cstrMatch (markerHead ++ (tok ++ '\n' :: rest)) (0 + 8) vertexTok
      = false := by
    rw [show (0 : Nat) + 8 = markerHead.length + 0 from by rw [hmh]]
    rw [cstrMatch_append_add markerHead (tok ++ '\n' :: rest) vertexTok 0]
    rw [cstrMatch_eq_startsWith vertexTok (by decide) (tok ++ '\n' :: rest)]
    exact hv
  have hguard : intToSizeT 0 < (markerHead ++ (tok ++ '\n' :: rest)).length := by
    rw [show intToSizeT 0 = 0 from rfl]
    omega
  -- the reported token span
  rcases hq : strfind (markerHead ++ (tok ++ '\n' :: rest)) nlPat (9 + tok.length)
      with _ | q
  · -- no further newline: the whole file is reported
    have htok : unknownTokenOf (markerHead ++ (tok ++ '\n' :: rest)) 0
        ((9 + tok.length : Nat) : Int) = markerHead ++ (tok ++ '\n' :: rest) := by
      rw [unknownTokenOf, hsz9, hq]
      simp only [szOf]
      rw [szSub_small npos 0 (by omega) (by norm_num [npos])]
      rw [show npos - 0 = npos from rfl, i32_npos, intToSizeT_neg_one]
      simp only [substrModel, List.drop_zero]
      exact List.take_of_length_le (by norm_num [npos]; omega)
    have hbody : pipeBody (markerHead ++ (tok ++ '\n' :: rest)) 0 emptyStages
        = Except.error (unknownMsg ++ (markerHead ++ (tok ++ '\n' :: rest))) := by
      simp only [pipeBody]
      rw [hcur0, hssv, hfrag, hvert, htok]
      simp
    refine ⟨unknownMsg ++ markerHead, '\n' :: rest, ?_⟩
    rw [pipelineInit, hfirst]
    simp only [pipeLoop, if_pos hguard, hbody]
    simp [List.append_assoc]
  · -- a later newline bounds the reported token
    obtain ⟨hq1, hq2⟩ := strfind_some_bounds _ _ _ _ hq
    have htok : unknownTokenOf (markerHead ++ (tok ++ '\n' :: rest)) 0
        ((9 + tok.length : Nat) : Int)
        = (markerHead ++ tok) ++ ('\n' :: rest).take (q - (markerHead ++ tok).length) := by
      rw [unknownTokenOf, hsz9, hq]
      simp only [szOf]
      rw [szSub_small q 0 (by omega) (by push_cast; omega)]
      rw [show q - 0 = q from rfl]
      rw [i32_small (q : Int) (Int.natCast_nonneg q) (by push_cast; omega)]
      rw [intToSizeT_ofNat q (by push_cast; omega)]
      simp only [substrModel, List.drop_zero]
      rw [show markerHead ++ (tok ++ '\n' :: rest) = (markerHead ++ tok) ++ '\n' :: rest from
        by simp]
      exact take_append_ge (markerHead ++ tok) ('\n' :: rest) q
        (by rw [List.length_append, hmh]; omega)
    have hbody : pipeBody (markerHead ++ (tok ++ '\n' :: rest)) 0 emptyStages
        = Except.error (unknownMsg ++
            ((markerHead ++ tok) ++ ('\n' :: rest).take (q - (markerHead ++ tok).length))) := by
      simp only [pipeBody]
      rw [hcur0, hssv, hfrag, hvert, htok]
      simp
    refine ⟨unknownMsg ++ markerHead,
      ('\n' :: rest).take (q - (markerHead ++ tok).length), ?_⟩
    rw [pipelineInit, hfirst]
    simp only [pipeLoop, if_pos hguard, hbody]
    simp [List.append_assoc]

/-- C8 witness: the token `geometry`. -/
theorem c8_witness :
    ∃ l r, pipelineInit (markerHead ++
        (['g', 'e', 'o', 'm', 'e', 't', 'r', 'y'] ++ '\n' :: ['v', 'o', 'i', 'd'])) 1
      = some (Except.error (l ++ (['g', 'e', 'o', 'm', 'e', 't', 'r', 'y'] ++ r))) :=
  c8_unknown_token ['g', 'e', 'o', 'm', 'e', 't', 'r', 'y'] ['v', 'o', 'i', 'd']
    (by decide) (by decide) (by decide) (by decide) 1 (by decide)

/-! ### Claim C3: two-stage source splitting -/

theorem cstrMatch_false_head (s : List Char) (base : Nat) (p : Char) (ps : List Char)
    (h : cstrAt s base ≠ p) : cstrMatch s base (p :: ps) = false := by
  rw [cstrMatch, if_neg h]

theorem cstrMatch_append_left (l t pat : List Char) :
    ∀ base : Nat, base + pat.length ≤ l.length →
      cstrMatch (l ++ t) base pat = cstrMatch l base pat := by
  induction pat with
  | nil => intro base _; rfl
  | cons p ps ih =>
    intro base hb
    rw [cstrMatch, cstrMatch, cstrAt_append_left l t base (by simp at hb; omega)]
    by_cases hc : cstrAt l base = p
    · rw [if_pos hc, if_pos hc, ih (base + 1) (by simp at hb ⊢; omega)]
    · rw [if_neg hc, if_neg hc]

theorem startsWith_shaderPat_fMarker (X : List Char) :
    startsWith shaderPat (fMarker ++ X) = true := by
  simp [shaderPat, fMarker, startsWith]

theorem startsWith_shaderPat_nil : startsWith shaderPat [] = false := rfl

theorem c3len (A B : List Char) :
    (vMarker ++ (A ++ (fMarker ++ B))).length = A.length + B.length + 32 := by
  simp [vMarker, fMarker]
  omega

theorem c3first (A B : List Char) :
    i32 ((szOf (findFirstOf (vMarker ++ (A ++ (fMarker ++ B))) shaderPat 0) : Nat) : Int)
      = 0 := by
  have hff : findFirstOf (vMarker ++ (A ++ (fMarker ++ B))) shaderPat 0 = some 0 := by
    apply findFirstOf_zero_hit
    · rw [c3len]
      omega
    · rfl
  rw [hff]
  decide

theorem c3cur1 (A B : List Char) :
    skipBlanks (vMarker ++ (A ++ (fMarker ++ B))) (intToSizeT 0) = 0 := by
  rw [show intToSizeT 0 = 0 from rfl]
  exact skipBlanks_stop _ _ rfl

theorem c3find_nl1 (A B : List Char) :
    strfind (vMarker ++ (A ++ (fMarker ++ B))) nlPat 0 = some 14 := by
  have hL := c3len A B
  apply strfind_eq_some
  · omega
  · omega
  · have h14 : (14 : Nat) < (vMarker ++ (A ++ (fMarker ++ B))).length := by omega
    rw [nlPat, startsWith_single_at _ _ _ h14,
      cstrAt_append_left vMarker (A ++ (fMarker ++ B)) 14 (by decide)]
    decide
  · intro m _ hm
    have hmlt : m < (vMarker ++ (A ++ (fMarker ++ B))).length := by omega
    have hne : ('\n' : Char) ≠ cstrAt (vMarker ++ (A ++ (fMarker ++ B))) m := by
      rw [cstrAt_append_left vMarker (A ++ (fMarker ++ B)) m (by rw [show vMarker.length = 15 from rfl]; omega)]
      interval_cases m <;> decide
    rw [nlPat, startsWith_single_at _ _ _ hmlt, if_neg hne]

theorem c3shaderStart1 (A B : List Char) :
    shaderStartOf (vMarker ++ (A ++ (fMarker ++ B))) 0 = (15 : Int) := by
  rw [shaderStartOf, c3find_nl1]
  decide

theorem c3frag1 (A B : List Char) :
    cstrMatch (vMarker ++ (A ++ (fMarker ++ B))) (0 + 8) fragmentTok = false := by
  apply cstrMatch_false_head
  rw [Nat.zero_add, cstrAt_append_left vMarker (A ++ (fMarker ++ B)) 8 (by decide)]
  decide

theorem c3vert1 (A B : List Char) :
    cstrMatch (vMarker ++ (A ++ (fMarker ++ B))) (0 + 8) vertexTok = true := by
  rw [Nat.zero_add,
    cstrMatch_append_left vMarker (A ++ (fMarker ++ B)) vertexTok 8 (by decide)]
  decide

theorem c3find_next (A B : List Char)
    (hA : ∀ i : Nat, i < A.length →
      startsWith shaderPat ((A ++ (fMarker ++ B)).drop i) = false) :
    strfind (vMarker ++ (A ++ (fMarker ++ B))) shaderPat 15 = some (15 + A.length) := by
  have hL := c3len A B
  apply strfind_eq_some
  · omega
  · omega
  · rw [show vMarker ++ (A ++ (fMarker ++ B)) = (vMarker ++ A) ++ (fMarker ++ B) from
      by simp]
    rw [show 15 + A.length = (vMarker ++ A).length from by
      rw [List.length_append, show vMarker.length = 15 from rfl]]
    rw [List.drop_left]
    exact startsWith_shaderPat_fMarker B
  · intro m hm1 hm2
    obtain ⟨i, rfl⟩ : ∃ i, m = 15 + i := ⟨m - 15, by omega⟩
    rw [show (15 : Nat) + i = vMarker.length + i from by
      rw [show vMarker.length = 15 from rfl],
      drop_append_add vMarker (A ++ (fMarker ++ B)) i]
    exact hA i (by omega)

theorem c3next1 (A B : List Char)
    (hA : ∀ i : Nat, i < A.length →
      startsWith shaderPat ((A ++ (fMarker ++ B)).drop i) = false)
    (hsize : (vMarker ++ (A ++ (fMarker ++ B))).length < 2 ^ 31) :
    nextStartOf (vMarker ++ (A ++ (fMarker ++ B))) (15 : Int)
      = ((15 + A.length : Nat) : Int) := by
  have hL := c3len A B
  rw [nextStartOf, show intToSizeT (15 : Int) = 15 from rfl, c3find_next A B hA]
  simp only [szOf]
  apply i32_small
  · exact Int.natCast_nonneg _
  · push_cast
    omega

theorem c3end1 (A B : List Char)
    (hA : ∀ i : Nat, i < A.length →
      startsWith shaderPat ((A ++ (fMarker ++ B)).drop i) = false)
    (hsize : (vMarker ++ (A ++ (fMarker ++ B))).length < 2 ^ 31) :
    shaderEndOf (vMarker ++ (A ++ (fMarker ++ B))) (15 : Int)
      = ((15 + A.length : Nat) : Int) := by
  have hL := c3len A B
  rw [shaderEndOf, c3next1 A B hA hsize]
  rw [if_neg (by
    rw [intToSizeT_ofNat (15 + A.length) (by push_cast; omega),
      show npos = 18446744073709551615 from by norm_num [npos]]
    omega)]

theorem c3span1 (A B : List Char)
    (hsize : (vMarker ++ (A ++ (fMarker ++ B))).length < 2 ^ 31) :
    spanOf (vMarker ++ (A ++ (fMarker ++ B))) (15 : Int)
      (i32 (((15 + A.length : Nat) : Int) - (15 : Int))) = A := by
  have hL := c3len A B
  rw [show ((15 + A.length : Nat) : Int) - (15 : Int) = ((A.length : Nat) : Int) from by
    push_cast; ring]
  rw [i32_small _ (Int.natCast_nonneg _) (by push_cast; omega)]
  rw [spanOf, show intToSizeT (15 : Int) = 15 from rfl,
    intToSizeT_ofNat A.length (by push_cast; omega)]
  rw [show (vMarker ++ (A ++ (fMarker ++ B))).drop 15 = A ++ (fMarker ++ B) from by
    rw [show (15 : Nat) = vMarker.length from rfl, List.drop_left]]
  exact List.take_left A (fMarker ++ B)

theorem c3body1 (A B : List Char)
    (hA : ∀ i : Nat, i < A.length →
      startsWith shaderPat ((A ++ (fMarker ++ B)).drop i) = false)
    (hsize : (vMarker ++ (A ++ (fMarker ++ B))).length < 2 ^ 31) :
    pipeBody (vMarker ++ (A ++ (fMarker ++ B))) 0 emptyStages
      = Except.ok (((15 + A.length : Nat) : Int), ⟨some A, none⟩) := by
  simp only [pipeBody]
  rw [c3cur1, c3shaderStart1, c3frag1, c3vert1, c3end1 A B hA hsize, c3span1 A B hsize]
  simp [insertStage, emptyStages]

theorem c3readF (A B : List Char) (j : Nat) (hj : j < 17) :
    cstrAt (vMarker ++ (A ++ (fMarker ++ B))) (15 + A.length + j) = cstrAt fMarker j := by
  rw [show vMarker ++ (A ++ (fMarker ++ B)) = (vMarker ++ A) ++ (fMarker ++ B) from
    by simp]
  rw [show 15 + A.length + j = (vMarker ++ A).length + j from by
    rw [List.length_append, show vMarker.length = 15 from rfl]]
  rw [cstrAt_append_add, cstrAt_append_left fMarker B j hj]

theorem c3cur2 (A B : List Char) :
    skipBlanks (vMarker ++ (A ++ (fMarker ++ B))) (15 + A.length) = 15 + A.length := by
  apply skipBlanks_stop
  rw [show 15 + A.length = 15 + A.length + 0 from rfl, c3readF A B 0 (by omega)]
  decide

theorem c3find_nl2 (A B : List Char) :
    strfind (vMarker ++ (A ++ (fMarker ++ B))) nlPat (15 + A.length)
      = some (15 + A.length + 16) := by
  have hL := c3len A B
  apply strfind_eq_some
  · omega
  · omega
  · have hmlt : 15 + A.length + 16 < (vMarker ++ (A ++ (fMarker ++ B))).length := by
      omega
    rw [nlPat, startsWith_single_at _ _ _ hmlt, c3readF A B 16 (by omega)]
    decide
  · intro m hm1 hm2
    obtain ⟨j, rfl⟩ : ∃ j, m = 15 + A.length + j := ⟨m - (15 + A.length), by omega⟩
    have hj : j < 16 := by omega
    have hmlt : 15 + A.length + j < (vMarker ++ (A ++ (fMarker ++ B))).length := by omega
    have hne : ('\n' : Char) ≠ cstrAt (vMarker ++ (A ++ (fMarker ++ B)))
        (15 + A.length + j) := by
      rw [c3readF A B j (by omega)]
      interval_cases j <;> decide
    rw [nlPat, startsWith_single_at _ _ _ hmlt, if_neg hne]

theorem c3ss2 (A B : List Char)
    (hsize : (vMarker ++ (A ++ (fMarker ++ B))).length < 2 ^ 31) :
    shaderStartOf (vMarker ++ (A ++ (fMarker ++ B))) (15 + A.length)
      = ((A.length + 32 : Nat) : Int) := by
  have hL := c3len A B
  rw [shaderStartOf, c3find_nl2]
  simp only [szOf]
  rw [show (15 + A.length + 16 + 1) % 2 ^ 64 = A.length + 32 from by
    rw [Nat.mod_eq_of_lt (by omega)]
    omega]
  apply i32_small
  · exact Int.natCast_nonneg _
  · push_cast
    omega

theorem c3frag2 (A B : List Char) :
    cstrMatch (vMarker ++ (A ++ (fMarker ++ B))) (15 + A.length + 8) fragmentTok
      = true := by
  rw [show vMarker ++ (A ++ (fMarker ++ B)) = (vMarker ++ A) ++ (fMarker ++ B) from
    by simp]
  rw [show 15 + A.length + 8 = (vMarker ++ A).length + 8 from by
    rw [List.length_append, show vMarker.length = 15 from rfl]]
  rw [cstrMatch_append_add, cstrMatch_append_left fMarker B fragmentTok 8 (by decide)]
  decide

theorem c3find3 (A B : List Char)
    (hB : ∀ i : Nat, i < B.length → startsWith shaderPat (B.drop i) = false) :
    strfind (vMarker ++ (A ++ (fMarker ++ B))) shaderPat (A.length + 32) = none := by
  have hL := c3len A B
  apply strfind_eq_none
  intro m hm1 hm2
  obtain ⟨t, rfl⟩ : ∃ t, m = A.length + 32 + t := ⟨m - (A.length + 32), by omega⟩
  rw [show vMarker ++ (A ++ (fMarker ++ B)) = ((vMarker ++ A) ++ fMarker) ++ B from
    by simp]
  rw [show A.length + 32 + t = ((vMarker ++ A) ++ fMarker).length + t from by
    rw [List.length_append, List.length_append, show vMarker.length = 15 from rfl,
      show fMarker.length = 17 from rfl]
    omega]
  rw [drop_append_add]
  by_cases ht : t < B.length
  · exact hB t ht
  · rw [List.drop_eq_nil_of_le (by omega)]
    exact startsWith_shaderPat_nil

theorem c3next2 (A B : List Char)
    (hB : ∀ i : Nat, i < B.length → startsWith shaderPat (B.drop i) = false)
    (hsize : (vMarker ++ (A ++ (fMarker ++ B))).length < 2 ^ 31) :
    nextStartOf (vMarker ++ (A ++ (fMarker ++ B))) ((A.length + 32 : Nat) : Int)
      = -1 := by
  have hL := c3len A B
  rw [nextStartOf, intToSizeT_ofNat (A.length + 32) (by push_cast; omega), c3find3 A B hB]
  simp only [szOf]
  exact i32_npos

theorem c3end2 (A B : List Char)
    (hB : ∀ i : Nat, i < B.length → startsWith shaderPat (B.drop i) = false)
    (hsize : (vMarker ++ (A ++ (fMarker ++ B))).length < 2 ^ 31) :
    shaderEndOf (vMarker ++ (A ++ (fMarker ++ B))) ((A.length + 32 : Nat) : Int)
      = (((vMarker ++ (A ++ (fMarker ++ B))).length : Nat) : Int) := by
  rw [shaderEndOf, c3next2 A B hB hsize, if_pos (by rw [intToSizeT_neg_one])]
  apply i32_small
  · exact Int.natCast_nonneg _
  · push_cast
    omega

theorem c3span2 (A B : List Char)
    (hsize : (vMarker ++ (A ++ (fMarker ++ B))).length < 2 ^ 31) :
    spanOf (vMarker ++ (A ++ (fMarker ++ B))) ((A.length + 32 : Nat) : Int)
      (i32 ((((vMarker ++ (A ++ (fMarker ++ B))).length : Nat) : Int)
        - ((A.length + 32 : Nat) : Int))) = B := by
  have hL := c3len A B
  rw [show (((vMarker ++ (A ++ (fMarker ++ B))).length : Nat) : Int)
      - ((A.length + 32 : Nat) : Int) = ((B.length : Nat) : Int) from by
    rw [hL]; push_cast; ring]
  rw [i32_small _ (Int.natCast_nonneg _) (by push_cast; omega)]
  rw [spanOf, intToSizeT_ofNat (A.length + 32) (by push_cast; omega),
    intToSizeT_ofNat B.length (by push_cast; omega)]
  rw [show vMarker ++ (A ++ (fMarker ++ B)) = ((vMarker ++ A) ++ fMarker) ++ B from
    by simp]
  rw [show A.length + 32 = ((vMarker ++ A) ++ fMarker).length from by
    rw [List.length_append, List.length_append, show vMarker.length = 15 from rfl,
      show fMarker.length = 17 from rfl]
    omega]
  rw [List.drop_left]
  exact List.take_length B

theorem c3body2 (A B : List Char)
    (hB : ∀ i : Nat, i < B.length → startsWith shaderPat (B.drop i) = false)
    (hsize : (vMarker ++ (A ++ (fMarker ++ B))).length < 2 ^ 31) :
    pipeBody (vMarker ++ (A ++ (fMarker ++ B))) ((15 + A.length : Nat) : Int)
      ⟨some A, none⟩
      = Except.ok ((((vMarker ++ (A ++ (fMarker ++ B))).length : Nat) : Int),
          ⟨some A, some B⟩) := by
  have hL := c3len A B
  simp only [pipeBody]
  rw [intToSizeT_ofNat (15 + A.length) (by push_cast; omega), c3cur2,
    c3ss2 A B hsize, c3frag2, c3end2 A B hB hsize, c3span2 A B hsize]
  simp [insertStage]

set_option maxRecDepth 4000 in
/-- C3: on a source text made of a vertex marker line, stage text `A`, a
fragment marker line, and stage text `B` (with no `#shader` occurrence
inside the `A` region or inside `B`, and the file small enough for the C
int positions), `Pipeline::init` succeeds with exactly two stages, keyed
Vertex and Fragment, whose compiled sources are exactly `A` and exactly
`B` — no marker-line bytes included. -/
theorem c3_pipeline_parse (A B : List Char)
    (hA : ∀ i : Nat, i < A.length →
      startsWith shaderPat ((A ++ (fMarker ++ B)).drop i) = false)
    (hB : ∀ i : Nat, i < B.length → startsWith shaderPat (B.drop i) = false)
    (hsize : (c3content A B).length < 2 ^ 31)
    (fuel : Nat) (hfuel : 3 ≤ fuel) :
    pipelineInit (c3content A B) fuel = some (Except.ok ⟨some A, some B⟩) := by
  simp only [c3content] at hsize ⊢
  obtain ⟨k, rfl⟩ : ∃ k, fuel = k + 3 := ⟨fuel - 3, by omega⟩
  have hL := c3len A B
  have hg1 : intToSizeT 0 < (vMarker ++ (A ++ (fMarker ++ B))).length := by
    rw [show intToSizeT 0 = 0 from rfl]
    omega
  have hg2 : intToSizeT ((15 + A.length : Nat) : Int)
      < (vMarker ++ (A ++ (fMarker ++ B))).length := by
    rw [intToSizeT_ofNat (15 + A.length) (by push_cast; omega)]
    omega
  have hg3 : ¬ intToSizeT (((vMarker ++ (A ++ (fMarker ++ B))).length : Nat) : Int)
      < (vMarker ++ (A ++ (fMarker ++ B))).length := by
    rw [intToSizeT_ofNat ((vMarker ++ (A ++ (fMarker ++ B))).length)
      (by push_cast; omega)]
    omega
  rw [pipelineInit, c3first A B]
  rw [show k + 3 = (k + 2) + 1 from rfl, pipeLoop, if_pos hg1]
  simp only [c3body1 A B hA hsize]
  rw [show k + 2 = (k + 1) + 1 from rfl, pipeLoop, if_pos hg2]
  simp only [c3body2 A B hB hsize]
  rw [pipeLoop, if_neg hg3]

/-- C3 witness: a one-character vertex source and one-character fragment
source. -/
theorem c3_witness :
    pipelineInit (c3content ['a'] ['b']) 3
      = some (Except.ok ⟨some ['a'], some ['b']⟩) :=
  c3_pipeline_parse ['a'] ['b'] (by decide) (by decide) (by decide) 3 (by decide)
